import Mathlib

/-!
Verification development for the Mobile-Chat-API repository.

The Python source (SQLAlchemy models under `app/models`, service layer under
`app/services`, endpoints under `app/api`) is shallowly embedded: the database
is a record of entity lists, each service method becomes a pure function from
a `DB` (plus the request parameters, with server-generated ids and timestamps
passed explicitly) to an `Except`-wrapped result, and each SQL query is
translated to the corresponding list filter/fold.  Timestamps (`datetime`)
become `Nat`, primary keys (`str` uuids) become `String`.
-/

namespace ChatApi

/-- Message delivery status, from `app/models/message.py` (`MessageStatus`). -/
inductive MessageStatus
  | sent
  | delivered
  | read
deriving DecidableEq, Repr

/-- Participant role, from `app/models/conversation.py` (`ParticipantRole`). -/
inductive ParticipantRole
  | admin
  | moderator
  | member
deriving DecidableEq, Repr

/-- Conversation row, from `app/models/conversation.py` (fields used by the
claims; name/description/avatar carry no logic and are omitted). -/
structure Conversation where
  id : String
  is_group : Bool
  created_by : String
  last_message_at : Option Nat
deriving DecidableEq, Repr

/-- Participant row (composite key `(user_id, conversation_id)`), from
`app/models/conversation.py`. -/
structure Participant where
  user_id : String
  conversation_id : String
  role : ParticipantRole
deriving DecidableEq, Repr

/-- Message row, from `app/models/message.py` (fields used by the claims). -/
structure Message where
  id : String
  conversation_id : String
  sender_id : String
  content : String
  status : MessageStatus
  is_deleted : Bool
  sent_at : Nat
deriving DecidableEq, Repr

/-- Read-receipt row (composite key `(message_id, user_id)`), from
`app/models/message.py` (`MessageReadReceipt`). -/
structure MessageReadReceipt where
  message_id : String
  user_id : String
deriving DecidableEq, Repr

/-- Per-user per-conversation settings row, from `app/models/settings.py`
(`ConversationSettings`); `last_read_message_id` is the unread watermark. -/
structure ConversationSettings where
  user_id : String
  conversation_id : String
  last_read_message_id : Option String
  is_muted : Bool
  is_pinned : Bool
deriving DecidableEq, Repr

/-- The transactional datastore: one list per table. -/
structure DB where
  users : List String
  conversations : List Conversation
  participants : List Participant
  messages : List Message
  receipts : List MessageReadReceipt
  settings : List ConversationSettings
deriving DecidableEq, Repr

/-- Error taxonomy of the service layer (`HTTPException` status codes). -/
inductive ApiError
  | forbidden
  | notFound
  | badRequest
  | conflict
deriving DecidableEq, Repr

/-- SELECT of a `Participant` row by `(conversation_id, user_id)`, reduced to
its existence test (the services only check `scalar_one_or_none()`). -/
def isParticipant (db : DB) (conversation_id user_id : String) : Bool :=
  db.participants.any fun p =>
    p.conversation_id == conversation_id && p.user_id == user_id

/-- SELECT of a `Message` row by primary key. -/
def findMessage (db : DB) (message_id : String) : Option Message :=
  db.messages.find? fun m => m.id == message_id

/-- SELECT of a `Conversation` row by primary key. -/
def findConversationRow (db : DB) (conversation_id : String) : Option Conversation :=
  db.conversations.find? fun c => c.id == conversation_id

/-- SELECT of the `ConversationSettings` row for `(conversation_id, user_id)`. -/
def findSettings (db : DB) (conversation_id user_id : String) :
    Option ConversationSettings :=
  db.settings.find? fun s =>
    s.conversation_id == conversation_id && s.user_id == user_id

/-- Folding step realising `ORDER BY sent_at DESC LIMIT 1` over the
`sent_at` column: the running maximum of an optional accumulator. -/
def optMaxTime (acc : Option Nat) (t : Nat) : Option Nat :=
  match acc with
  | none => some t
  | some b => some (max b t)

/-- The `sent_at` of the most recent non-deleted message `user_id` sent in the
conversation (`last_sent_message_time_by_user` in `_get_unread_count`). -/
def lastSelfSentTime (db : DB) (conversation_id user_id : String) : Option Nat :=
  ((db.messages.filter fun m =>
      m.conversation_id == conversation_id && m.sender_id == user_id &&
        m.is_deleted == false).map
    fun m => m.sent_at).foldl optMaxTime none

/-- `ConversationService._get_unread_count`
(`app/services/conversation_service.py`), translated branch by branch. -/
def _get_unread_count (db : DB) (conversation_id user_id : String) : Nat :=
  let settings := findSettings db conversation_id user_id
  let last_sent_message_time_by_user := lastSelfSentTime db conversation_id user_id
  let last_read_time_for_unread_calc : Option Nat :=
    match settings with
    | some s =>
      match s.last_read_message_id with
      | some mid =>
        let last_read_time_from_settings :=
          (findMessage db mid).map fun m => m.sent_at
        match last_read_time_from_settings, last_sent_message_time_by_user with
        | some a, some b => some (max a b)
        | some a, none => some a
        | none, some b => some b
        | none, none => none
      | none => last_sent_message_time_by_user
    | none => last_sent_message_time_by_user
  match last_read_time_for_unread_calc with
  | some t =>
    (db.messages.filter fun m =>
      m.conversation_id == conversation_id && decide (t < m.sent_at) &&
        m.is_deleted == false && m.sender_id != user_id).length
  | none =>
    (db.messages.filter fun m =>
      m.conversation_id == conversation_id &&
        m.is_deleted == false && m.sender_id != user_id).length

/-- Maximum of two optional timestamps (`none` when both are absent). -/
def optMax2 : Option Nat → Option Nat → Option Nat
  | some a, some b => some (max a b)
  | some a, none => some a
  | none, some b => some b
  | none, none => none

/-- Modelled from the spec wording of §4.3: the `watermark_time` is the max of
(a) the `sent_at` of the user's `ConversationSettings.last_read_message_id`,
if set, and (b) the `sent_at` of the most recent message the user themself
sent in the conversation. -/
def specWatermarkTime (db : DB) (conversation_id user_id : String) : Option Nat :=
  let read_time : Option Nat :=
    (findSettings db conversation_id user_id).bind fun s =>
      s.last_read_message_id.bind fun mid =>
        (findMessage db mid).map fun m => m.sent_at
  optMax2 read_time (lastSelfSentTime db conversation_id user_id)

/-- Modelled from the spec wording of §4.3: if a watermark exists, the unread
count is the number of non-deleted messages strictly newer than it and not
sent by the user; otherwise the number of all non-deleted messages not sent
by the user. -/
def specUnreadCount (db : DB) (conversation_id user_id : String) : Nat :=
  match specWatermarkTime db conversation_id user_id with
  | some t =>
    (db.messages.filter fun m =>
      m.conversation_id == conversation_id && decide (t < m.sent_at) &&
        m.is_deleted == false && m.sender_id != user_id).length
  | none =>
    (db.messages.filter fun m =>
      m.conversation_id == conversation_id &&
        m.is_deleted == false && m.sender_id != user_id).length

/-- The implementation branch structure of `_get_unread_count` collapses to
the two-source-max watermark rule of the spec. -/
lemma unread_count_eq_specUnread (db : DB) (conversation_id user_id : String) :
    _get_unread_count db conversation_id user_id =
      specUnreadCount db conversation_id user_id := by
  unfold _get_unread_count specUnreadCount specWatermarkTime optMax2
  cases hs : findSettings db conversation_id user_id with
  | none =>
    cases hl : lastSelfSentTime db conversation_id user_id <;> simp [hs, hl]
  | some s =>
    cases hm : s.last_read_message_id with
    | none =>
      cases hl : lastSelfSentTime db conversation_id user_id <;> simp [hs, hm, hl]
    | some mid =>
      cases hf : findMessage db mid with
      | none =>
        cases hl : lastSelfSentTime db conversation_id user_id <;>
          simp [hs, hm, hf, hl]
      | some m =>
        cases hl : lastSelfSentTime db conversation_id user_id <;>
          simp [hs, hm, hf, hl]

/-- Existence test for a `(message_id, user_id)` read receipt (the existing
receipt lookup at the head of `mark_messages_as_read`). -/
def hasReceipt (db : DB) (message_id user_id : String) : Bool :=
  db.receipts.any fun r => r.message_id == message_id && r.user_id == user_id

/-- The membership check `Message.id == msg_id AND conversation_id == ...`
inside the receipt-insertion loop of `mark_messages_as_read`. -/
def messageInConversation (db : DB) (message_id conversation_id : String) : Bool :=
  db.messages.any fun m => m.id == message_id && m.conversation_id == conversation_id

/-- SELECT of the message with maximal `sent_at` among `message_ids`
(`ORDER BY sent_at DESC LIMIT 1` in `mark_messages_as_read`). -/
def latestMessageIn (db : DB) (message_ids : List String) : Option Message :=
  (db.messages.filter fun m => message_ids.contains m.id).foldl
    (fun acc m =>
      match acc with
      | none => some m
      | some b => if b.sent_at < m.sent_at then some m else some b) none

/-- UPDATE of the settings row keyed `(conversation_id, user_id)`. -/
def replaceSettings (l : List ConversationSettings) (conversation_id user_id : String)
    (s2 : ConversationSettings) : List ConversationSettings :=
  l.map fun t =>
    bif t.conversation_id == conversation_id && t.user_id == user_id then s2 else t

instance decEqExcept {ε α : Type} [DecidableEq ε] [DecidableEq α] :
    DecidableEq (Except ε α) := fun x y =>
  match x, y with
  | Except.ok a, Except.ok b =>
    if h : a = b then isTrue (by rw [h]) else isFalse (by simp [h])
  | Except.ok _, Except.error _ => isFalse (by simp)
  | Except.error _, Except.ok _ => isFalse (by simp)
  | Except.error e, Except.error f =>
    if h : e = f then isTrue (by rw [h]) else isFalse (by simp [h])

/-- `MessageService.mark_messages_as_read`
(`app/services/message_service.py`): empty-input early return, participant
check, receipt insertion for not-yet-receipted ids that belong to the
conversation, then an unconditional overwrite of
`ConversationSettings.last_read_message_id` with the most recent of the given
message ids (creating the settings row when absent).  The Python function has
no return value; the embedding returns the updated state. -/
def mark_messages_as_read (db : DB) (conversation_id user_id : String)
    (message_ids : List String) : Except ApiError DB :=
  if message_ids.isEmpty then Except.ok db
  else if !(isParticipant db conversation_id user_id) then Except.error ApiError.forbidden
  else
    let new_receipts :=
      (message_ids.filter fun mid =>
        !(hasReceipt db mid user_id) && messageInConversation db mid conversation_id).map
        fun mid => MessageReadReceipt.mk mid user_id
    let db1 : DB := { db with receipts := db.receipts ++ new_receipts }
    match latestMessageIn db message_ids with
    | none => Except.ok db1
    | some latest =>
      match findSettings db conversation_id user_id with
      | some s =>
        let s2 : ConversationSettings := { s with last_read_message_id := some latest.id }
        Except.ok { db1 with settings := replaceSettings db1.settings conversation_id user_id s2 }
      | none =>
        let created : ConversationSettings :=
          ⟨user_id, conversation_id, some latest.id, false, false⟩
        Except.ok { db1 with settings := db1.settings ++ [created] }

/-- The `sent_at` of the message currently referenced by the user's
`last_read_message_id` watermark. -/
def watermarkSentAt (db : DB) (conversation_id user_id : String) : Option Nat :=
  (findSettings db conversation_id user_id).bind fun s =>
    s.last_read_message_id.bind fun mid => (findMessage db mid).map fun m => m.sent_at

/-- C1: for every user and conversation, the unread count computed by
`_get_unread_count` equals the spec's two-source-max rule: with the watermark
time being the max of the resolved `last_read_message_id` time and the most
recent self-sent non-deleted message time, the count of non-deleted
strictly-newer messages from other senders, and with no watermark the count
of all non-deleted messages from other senders. -/
theorem unread_count_matches_spec (db : DB) (conversation_id user_id : String) :
    _get_unread_count db conversation_id user_id =
      specUnreadCount db conversation_id user_id :=
  unread_count_eq_specUnread db conversation_id user_id

/-- C10: `mark_messages_as_read` with an empty id list returns successfully
with the state unchanged for every state, in particular also when the caller
is not a participant, because the early return precedes the participant
check. -/
theorem mark_as_read_empty_is_noop (db : DB) (conversation_id user_id : String) :
    mark_messages_as_read db conversation_id user_id [] = Except.ok db := rfl

/-- Scenario state for the watermark claims: user `u` has read-marked `m2`
(sent at time 2); `m1` (sent at time 1) is an older unreceipted message. -/
def wmDB : DB :=
  { users := ["u", "v"]
  , conversations := [⟨"c1", false, "u", some 2⟩]
  , participants := [⟨"u", "c1", ParticipantRole.admin⟩, ⟨"v", "c1", ParticipantRole.member⟩]
  , messages := [⟨"m1", "c1", "v", "hello", MessageStatus.sent, false, 1⟩,
                 ⟨"m2", "c1", "v", "again", MessageStatus.sent, false, 2⟩]
  , receipts := [⟨"m2", "u"⟩]
  , settings := [⟨"u", "c1", some "m2", false, false⟩] }

/-- C2 counterexample: user `u`'s watermark references `m2` (`sent_at = 2`);
marking only the older `m1` as read moves the watermark back to `m1`
(`sent_at = 1`), so the watermark's `sent_at` decreases across a
`mark_messages_as_read` call. -/
theorem mark_as_read_watermark_regression :
    watermarkSentAt wmDB "c1" "u" = some 2 ∧
      (mark_messages_as_read wmDB "c1" "u" ["m1"]).map
        (fun d => watermarkSentAt d "c1" "u") = Except.ok (some 1) :=
  ⟨rfl, by decide⟩

lemma find?_replaceSettings (l : List ConversationSettings) (c u : String)
    (s2 : ConversationSettings)
    (h2 : (s2.conversation_id == c && s2.user_id == u) = true) :
    (replaceSettings l c u s2).find? (fun t => t.conversation_id == c && t.user_id == u) =
      (l.find? (fun t => t.conversation_id == c && t.user_id == u)).map fun _ => s2 := by
  induction l with
  | nil => rfl
  | cons a l ih =>
    simp only [replaceSettings, List.map_cons] at ih ⊢
    cases ha : (a.conversation_id == c && a.user_id == u) with
    | true =>
      rw [cond_true,
        List.find?_cons_of_pos (p := fun (t : ConversationSettings) => t.conversation_id == c && t.user_id == u) _ h2,
        List.find?_cons_of_pos (p := fun (t : ConversationSettings) => t.conversation_id == c && t.user_id == u) _ ha]
      rfl
    | false =>
      rw [cond_false,
        List.find?_cons_of_neg (p := fun (t : ConversationSettings) => t.conversation_id == c && t.user_id == u) _
          (by simp [ha]),
        List.find?_cons_of_neg (p := fun (t : ConversationSettings) => t.conversation_id == c && t.user_id == u) _
          (by simp [ha])]
      exact ih

lemma find?_append_of_none {α : Type} (p : α → Bool) (l : List α) (x : α)
    (h : l.find? p = none) (hx : p x = true) : (l ++ [x]).find? p = some x := by
  rw [List.find?_append, h, List.find?_cons_of_pos _ hx]
  rfl

/-- C2 amended: `mark_messages_as_read` sets the caller's
`last_read_message_id` unconditionally to the id of the message with maximal
`sent_at` among the given `message_ids`, with no comparison against the
current watermark — so the watermark is not monotone and can move backward. -/
theorem mark_as_read_overwrites_watermark
    (db : DB) (conversation_id user_id : String) (message_ids : List String)
    (latest : Message)
    (hne : message_ids ≠ [])
    (hpart : isParticipant db conversation_id user_id = true)
    (hlatest : latestMessageIn db message_ids = some latest) :
    (mark_messages_as_read db conversation_id user_id message_ids).map
      (fun d => (findSettings d conversation_id user_id).bind
        fun s => s.last_read_message_id) = Except.ok (some latest.id) := by
  have hne2 : message_ids.isEmpty = false := List.isEmpty_eq_false.mpr hne
  unfold mark_messages_as_read
  rw [if_neg (by simp [hne2]), if_neg (by simp [hpart]), hlatest]
  cases hs : findSettings db conversation_id user_id with
  | some s =>
    have hs' : db.settings.find?
        (fun t => t.conversation_id == conversation_id && t.user_id == user_id) = some s := hs
    have hps := List.find?_some hs'
    simp only [Except.map, findSettings]
    rw [find?_replaceSettings db.settings conversation_id user_id
      { s with last_read_message_id := some latest.id } (by simpa using hps), hs']
    rfl
  | none =>
    have hs' : db.settings.find?
        (fun t => t.conversation_id == conversation_id && t.user_id == user_id) = none := hs
    simp only [Except.map, findSettings]
    rw [find?_append_of_none _ _ _ hs' (by simp)]
    rfl

/-- Witness for C2's amended theorem at the concrete regression state. -/
theorem mark_as_read_overwrites_watermark_witness :
    (mark_messages_as_read wmDB "c1" "u" ["m1"]).map
      (fun d => (findSettings d "c1" "u").bind fun s => s.last_read_message_id) =
      Except.ok (some "m1") :=
  mark_as_read_overwrites_watermark wmDB "c1" "u" ["m1"]
    ⟨"m1", "c1", "v", "hello", MessageStatus.sent, false, 1⟩
    (by decide) rfl rfl

/-- `MessageService.create_message` (`app/services/message_service.py`):
participant check, conversation existence check, INSERT of the new message
with status SENT, and a bump of `conversation.last_message_at`.  The
server-generated uuid and `utcnow` timestamp are explicit parameters.  No
`ConversationSettings` row is read or written by this method. -/
def create_message (db : DB) (conversation_id sender_id content new_id : String)
    (now : Nat) : Except ApiError (DB × Message) :=
  if !(isParticipant db conversation_id sender_id) then Except.error ApiError.forbidden
  else
    match findConversationRow db conversation_id with
    | none => Except.error ApiError.notFound
    | some _ =>
      let message : Message :=
        ⟨new_id, conversation_id, sender_id, content, MessageStatus.sent, false, now⟩
      let convs := db.conversations.map fun c =>
        bif c.id == conversation_id then { c with last_message_at := some now } else c
      Except.ok ({ db with messages := db.messages ++ [message], conversations := convs },
        message)

/-- Inbound frame shape of the websocket protocol
(`app/schemas/websocket.py`, fields used by the claims). -/
structure WebSocketFrame where
  client_message_id : String
  conversation_id : String
  sender_id : String
  content : String
deriving DecidableEq, Repr

/-- The persist step of the websocket inbound-frame loop
(`app/api/websocket.py`): after the sender-mismatch check, the frame is
inserted as a new `Message` with status SENT; `none` models the error frame
sent back on mismatch.  No `ConversationSettings` row is touched. -/
def websocket_inbound_persist (db : DB) (frame : WebSocketFrame)
    (conn_user_id new_id : String) (now : Nat) : Option (DB × Message) :=
  if frame.sender_id != conn_user_id then none
  else
    let message : Message :=
      ⟨new_id, frame.conversation_id, frame.sender_id, frame.content,
        MessageStatus.sent, false, now⟩
    some ({ db with messages := db.messages ++ [message] }, message)

/-- Scenario state for the send-path watermark claim: sender `u`'s watermark
references the old message `m0`. -/
def sendDB : DB :=
  { users := ["u", "v"]
  , conversations := [⟨"c1", false, "u", some 2⟩]
  , participants := [⟨"u", "c1", ParticipantRole.admin⟩, ⟨"v", "c1", ParticipantRole.member⟩]
  , messages := [⟨"m0", "c1", "v", "old", MessageStatus.sent, false, 2⟩]
  , receipts := []
  , settings := [⟨"u", "c1", some "m0", false, false⟩] }

/-- C3 counterexample: a successful `create_message` call by `u` (new message
`m9`, newer than the current watermark message `m0`) leaves `u`'s
`ConversationSettings.last_read_message_id` at `m0` instead of advancing it
to `m9` as the claim states; the same state shows the watermark row is not
created or updated on send. -/
theorem create_message_watermark_counterexample :
    (create_message sendDB "c1" "u" "hi" "m9" 5).map
      (fun r => (findSettings r.1 "c1" "u").bind fun s => s.last_read_message_id) =
      Except.ok (some "m0") ∧ some "m0" ≠ some "m9" := by
  exact ⟨by decide, by decide⟩

/-- C3 amended: neither `create_message` nor the websocket inbound-frame path
writes the sender's `ConversationSettings` watermark; nevertheless the
sender's own just-sent message never inflates their own unread count, because
`_get_unread_count` both excludes self-sent messages and treats the latest
self-sent message as an implicit watermark, so the sender's unread count
never increases across their own successful `create_message` call. -/
theorem create_message_settings_untouched
    (db : DB) (conversation_id sender_id content new_id : String) (now : Nat)
    (db2 : DB) (m : Message)
    (hwm : ∀ s ∈ db.settings, s.last_read_message_id ≠ some new_id)
    (hok : create_message db conversation_id sender_id content new_id now =
      Except.ok (db2, m)) :
    db2.settings = db.settings ∧
      _get_unread_count db2 conversation_id sender_id ≤
        _get_unread_count db conversation_id sender_id ∧
      (∀ (db3 : DB) (frame : WebSocketFrame) (cu nid : String) (t : Nat)
        (r : DB × Message), websocket_inbound_persist db3 frame cu nid t = some r →
        r.1.settings = db3.settings) := by
  unfold create_message at hok
  by_cases hpart : isParticipant db conversation_id sender_id = true
  case neg =>
    have hp2 : isParticipant db conversation_id sender_id = false := by
      revert hpart
      cases isParticipant db conversation_id sender_id <;> simp
    rw [if_pos (by simp [hp2])] at hok
    exact absurd hok (by simp)
  rw [if_neg (by simp [hpart])] at hok
  cases hconv : findConversationRow db conversation_id with
  | none => rw [hconv] at hok; exact absurd hok (by simp)
  | some conv =>
    rw [hconv] at hok
    injection hok with hok
    injection hok with h1 h2
    have hsettings : db2.settings = db.settings := by rw [← h1]
    have hmessages : db2.messages = db.messages ++
        [⟨new_id, conversation_id, sender_id, content, MessageStatus.sent, false, now⟩] := by
      rw [← h1]
    refine ⟨hsettings, ?_, ?_⟩
    · rw [unread_count_eq_specUnread, unread_count_eq_specUnread]
      have hfs : findSettings db2 conversation_id sender_id =
          findSettings db conversation_id sender_id := by
        unfold findSettings
        rw [hsettings]
      have hfm : ∀ mid, mid ≠ new_id → findMessage db2 mid = findMessage db mid := by
        intro mid hmid
        unfold findMessage
        rw [hmessages, List.find?_append]
        have hnil : List.find? (fun mm => mm.id == mid)
            [(⟨new_id, conversation_id, sender_id, content,
              MessageStatus.sent, false, now⟩ : Message)] = none := by
          simp [List.find?, beq_eq_false_iff_ne.mpr (Ne.symm hmid)]
        rw [hnil, Option.or_none]
      have hself : lastSelfSentTime db2 conversation_id sender_id =
          optMaxTime (lastSelfSentTime db conversation_id sender_id) now := by
        unfold lastSelfSentTime
        rw [hmessages]
        simp only [List.filter_append, List.map_append, List.foldl_append]
        simp [List.filter]
      have hread : ((findSettings db2 conversation_id sender_id).bind fun s =>
          s.last_read_message_id.bind fun mid =>
            (findMessage db2 mid).map fun mm => mm.sent_at) =
          ((findSettings db conversation_id sender_id).bind fun s =>
            s.last_read_message_id.bind fun mid =>
              (findMessage db mid).map fun mm => mm.sent_at) := by
        rw [hfs]
        cases hset : findSettings db conversation_id sender_id with
        | none => rfl
        | some s =>
          simp only [Option.some_bind]
          cases hmid : s.last_read_message_id with
          | none => rfl
          | some mid =>
            simp only [Option.some_bind]
            have hmem := List.mem_of_find?_eq_some hset
            have hne : mid ≠ new_id := fun hcontra => hwm s hmem (by rw [hmid, hcontra])
            rw [hfm mid hne]
      have hwm2 : specWatermarkTime db2 conversation_id sender_id =
          optMax2 ((findSettings db conversation_id sender_id).bind fun s =>
            s.last_read_message_id.bind fun mid =>
              (findMessage db mid).map fun mm => mm.sent_at)
            (optMaxTime (lastSelfSentTime db conversation_id sender_id) now) := by
        unfold specWatermarkTime
        rw [hread, hself]
      have hwm1 : specWatermarkTime db conversation_id sender_id =
          optMax2 ((findSettings db conversation_id sender_id).bind fun s =>
            s.last_read_message_id.bind fun mid =>
              (findMessage db mid).map fun mm => mm.sent_at)
            (lastSelfSentTime db conversation_id sender_id) := rfl
      have hkey : ∀ a, specWatermarkTime db conversation_id sender_id = some a →
          ∃ b, specWatermarkTime db2 conversation_id sender_id = some b ∧ a ≤ b := by
        intro a ha
        rw [hwm1] at ha
        rw [hwm2]
        cases hrt : (findSettings db conversation_id sender_id).bind
            (fun s => s.last_read_message_id.bind fun mid =>
              (findMessage db mid).map fun mm => mm.sent_at) with
        | none =>
          rw [hrt] at ha
          cases hls : lastSelfSentTime db conversation_id sender_id with
          | none => rw [hls] at ha; exact absurd ha (by simp [optMax2])
          | some b =>
            rw [hls] at ha
            simp only [optMax2] at ha
            injection ha with hba
            refine ⟨max b now, by simp [optMaxTime, optMax2], ?_⟩
            rw [← hba]
            exact le_max_left _ _
        | some r =>
          rw [hrt] at ha
          cases hls : lastSelfSentTime db conversation_id sender_id with
          | none =>
            rw [hls] at ha
            simp only [optMax2] at ha
            injection ha with hra
            refine ⟨max r now, by simp [optMaxTime, optMax2], ?_⟩
            rw [← hra]
            exact le_max_left _ _
          | some b =>
            rw [hls] at ha
            simp only [optMax2] at ha
            injection ha with hra
            refine ⟨max r (max b now), by simp [optMaxTime, optMax2], ?_⟩
            rw [← hra]
            exact max_le_max (le_refl r) (le_max_left _ _)
      have hfilters : ∀ t : Nat, (db2.messages.filter fun mm =>
          mm.conversation_id == conversation_id && decide (t < mm.sent_at) &&
            mm.is_deleted == false && mm.sender_id != sender_id) =
          (db.messages.filter fun mm =>
            mm.conversation_id == conversation_id && decide (t < mm.sent_at) &&
              mm.is_deleted == false && mm.sender_id != sender_id) := by
        intro t
        rw [hmessages, List.filter_append]
        simp [List.filter]
      have hfilters2 : (db2.messages.filter fun mm =>
          mm.conversation_id == conversation_id &&
            mm.is_deleted == false && mm.sender_id != sender_id) =
          (db.messages.filter fun mm =>
            mm.conversation_id == conversation_id &&
              mm.is_deleted == false && mm.sender_id != sender_id) := by
        rw [hmessages, List.filter_append]
        simp [List.filter]
      unfold specUnreadCount
      cases hW2 : specWatermarkTime db2 conversation_id sender_id with
      | none =>
        dsimp only
        cases hW : specWatermarkTime db conversation_id sender_id with
        | none =>
          dsimp only
          rw [hfilters2]
        | some a =>
          obtain ⟨b, hb, _⟩ := hkey a hW
          rw [hW2] at hb
          exact absurd hb (by simp)
      | some t =>
        dsimp only
        rw [hfilters t]
        cases hW : specWatermarkTime db conversation_id sender_id with
        | none =>
          dsimp only
          simp only [← List.countP_eq_length_filter]
          refine List.countP_mono_left fun x _ hx => ?_
          simp only [Bool.and_eq_true] at hx ⊢
          exact ⟨⟨hx.1.1.1, hx.1.2⟩, hx.2⟩
        | some a =>
          dsimp only
          obtain ⟨b, hb, hab⟩ := hkey a hW
          rw [hW2] at hb
          injection hb with hb
          subst hb
          simp only [← List.countP_eq_length_filter]
          refine List.countP_mono_left fun x _ hx => ?_
          simp only [Bool.and_eq_true, decide_eq_true_eq] at hx ⊢
          exact ⟨⟨⟨hx.1.1.1, lt_of_le_of_lt hab hx.1.1.2⟩, hx.1.2⟩, hx.2⟩
    · intro db3 frame cu nid t r hr
      unfold websocket_inbound_persist at hr
      by_cases hmis : (frame.sender_id != cu) = true
      · rw [if_pos hmis] at hr
        exact absurd hr (by simp)
      · rw [if_neg hmis] at hr
        injection hr with hr
        rw [← hr]

/-- The state after the witness send over `sendDB`. -/
def sendDB2 : DB :=
  { users := ["u", "v"]
  , conversations := [⟨"c1", false, "u", some 5⟩]
  , participants := [⟨"u", "c1", ParticipantRole.admin⟩, ⟨"v", "c1", ParticipantRole.member⟩]
  , messages := [⟨"m0", "c1", "v", "old", MessageStatus.sent, false, 2⟩,
                 ⟨"m9", "c1", "u", "hi", MessageStatus.sent, false, 5⟩]
  , receipts := []
  , settings := [⟨"u", "c1", some "m0", false, false⟩] }

/-- Witness for C3's amended theorem at the concrete send scenario. -/
theorem create_message_settings_untouched_witness :
    sendDB2.settings = sendDB.settings ∧
      _get_unread_count sendDB2 "c1" "u" ≤ _get_unread_count sendDB "c1" "u" ∧
      (∀ (db3 : DB) (frame : WebSocketFrame) (cu nid : String) (t : Nat)
        (r : DB × Message), websocket_inbound_persist db3 frame cu nid t = some r →
        r.1.settings = db3.settings) :=
  create_message_settings_untouched sendDB "c1" "u" "hi" "m9" 5 sendDB2
    ⟨"m9", "c1", "u", "hi", MessageStatus.sent, false, 5⟩
    (by decide) (by decide)

/-- The read-count subquery used by both `get_message` and
`get_messages_in_conversation`: COUNT over all receipts of the message, with
no condition on the receipt's user. -/
def read_by_count_query (db : DB) (message_id : String) : Nat :=
  (db.receipts.filter fun r => r.message_id == message_id).length

/-- Modelled from the spec: the number of distinct read receipts on the
message excluding any receipt from the message's sender. -/
def specReadByCount (db : DB) (message_id sender_id : String) : Nat :=
  (db.receipts.filter fun r =>
    r.message_id == message_id && r.user_id != sender_id).length

/-- The `MessageResponse` schema (`app/schemas/message.py`), fields used by
the claims. -/
structure MessageResponse where
  id : String
  conversation_id : String
  sender_id : String
  content : String
  status : MessageStatus
  is_deleted : Bool
  sent_at : Nat
  read_by_count : Nat
deriving DecidableEq, Repr

/-- Assembly of one `MessageResponse` from a `Message` row, shared by
`get_message` and `get_messages_in_conversation`. -/
def messageToResponse (db : DB) (m : Message) : MessageResponse :=
  ⟨m.id, m.conversation_id, m.sender_id, m.content, m.status, m.is_deleted,
    m.sent_at, read_by_count_query db m.id⟩

/-- `MessageService.get_message`: lookup, deleted check, participant check,
response assembly with `read_by_count`. -/
def get_message (db : DB) (message_id user_id : String) :
    Except ApiError MessageResponse :=
  match findMessage db message_id with
  | none => Except.error ApiError.notFound
  | some m =>
    if m.is_deleted then Except.error ApiError.notFound
    else if !(isParticipant db m.conversation_id user_id) then
      Except.error ApiError.forbidden
    else Except.ok (messageToResponse db m)

/-- Insertion step of `ORDER BY sent_at DESC`. -/
def insertByTimeDesc (m : Message) : List Message → List Message
  | [] => [m]
  | x :: xs =>
    bif decide (x.sent_at ≤ m.sent_at) then m :: x :: xs else x :: insertByTimeDesc m xs

/-- `ORDER BY sent_at DESC` as an insertion sort (ties in database order). -/
def sortByTimeDesc : List Message → List Message
  | [] => []
  | x :: xs => insertByTimeDesc x (sortByTimeDesc xs)

lemma length_insertByTimeDesc (m : Message) (l : List Message) :
    (insertByTimeDesc m l).length = l.length + 1 := by
  induction l with
  | nil => rfl
  | cons x xs ih =>
    unfold insertByTimeDesc
    cases decide (x.sent_at ≤ m.sent_at) with
    | true => simp
    | false => simp [ih]

lemma length_sortByTimeDesc (l : List Message) :
    (sortByTimeDesc l).length = l.length := by
  induction l with
  | nil => rfl
  | cons x xs ih =>
    unfold sortByTimeDesc
    rw [length_insertByTimeDesc, ih]
    rfl

/-- The `MessagesResponse` schema (`app/schemas/message.py`). -/
structure MessagesResponse where
  messages : List MessageResponse
  total : Nat
  page : Nat
  per_page : Nat
  has_more : Bool
deriving DecidableEq, Repr

/-- `MessageService.get_messages_in_conversation`: participant check,
non-deleted filter, optional `before_message_id` cursor (strictly older than
the cursor message's `sent_at`), COUNT for `total`, newest-first ordering,
OFFSET/LIMIT pagination, and `has_more = page * per_page < total`. -/
def get_messages_in_conversation (db : DB) (conversation_id user_id : String)
    (page per_page : Nat) (before_message_id : Option String) :
    Except ApiError MessagesResponse :=
  if !(isParticipant db conversation_id user_id) then Except.error ApiError.forbidden
  else
    let base := db.messages.filter fun m =>
      m.conversation_id == conversation_id && m.is_deleted == false
    let filtered :=
      match before_message_id with
      | none => base
      | some bid =>
        match findMessage db bid with
        | some bm => base.filter fun m => decide (m.sent_at < bm.sent_at)
        | none => base
    let total_messages := filtered.length
    let page_items :=
      ((sortByTimeDesc filtered).drop ((page - 1) * per_page)).take per_page
    let has_more := decide (page * per_page < total_messages)
    Except.ok ⟨page_items.map (messageToResponse db), total_messages, page,
      per_page, has_more⟩

/-- C9: on any successful `get_messages_in_conversation` call with a
1-indexed page, the number of returned messages is
`min per_page (total - (page-1)*per_page)`, and the returned
`has_more = page*per_page < total` coincides with the spec's
`(offset + returned) < total`. -/
theorem pagination_has_more_consistent
    (db : DB) (conversation_id user_id : String) (page per_page : Nat)
    (before_message_id : Option String) (resp : MessagesResponse)
    (hpage : 1 ≤ page)
    (hok : get_messages_in_conversation db conversation_id user_id page per_page
      before_message_id = Except.ok resp) :
    resp.messages.length = min per_page (resp.total - (page - 1) * per_page) ∧
      resp.has_more =
        decide ((page - 1) * per_page + resp.messages.length < resp.total) := by
  unfold get_messages_in_conversation at hok
  by_cases hpart : isParticipant db conversation_id user_id = true
  case neg =>
    have hp2 : isParticipant db conversation_id user_id = false := by
      revert hpart
      cases isParticipant db conversation_id user_id <;> simp
    rw [if_pos (by simp [hp2])] at hok
    exact absurd hok (by simp)
  rw [if_neg (by simp [hpart])] at hok
  injection hok with hok
  subst hok
  constructor
  · simp only [List.length_map, List.length_take, List.length_drop,
      length_sortByTimeDesc]
  · have hmul : page * per_page = (page - 1) * per_page + per_page := by
      conv_lhs => rw [← Nat.sub_add_cancel hpage]
      rw [Nat.add_mul, one_mul]
    simp only [List.length_map, List.length_take, List.length_drop,
      length_sortByTimeDesc, hmul]
    rw [decide_eq_decide]
    generalize (match before_message_id with
      | none => List.filter (fun (m : Message) =>
          m.conversation_id == conversation_id && m.is_deleted == false) db.messages
      | some bid =>
        match findMessage db bid with
        | some bm => List.filter (fun (m : Message) => decide (m.sent_at < bm.sent_at))
            (List.filter (fun (m : Message) =>
              m.conversation_id == conversation_id && m.is_deleted == false) db.messages)
        | none => List.filter (fun (m : Message) =>
            m.conversation_id == conversation_id && m.is_deleted == false)
            db.messages).length = T
    generalize (page - 1) * per_page = A
    omega

/-- Scenario state for the pagination witness: three messages in `c1`. -/
def pageDB : DB :=
  { users := ["u"]
  , conversations := [⟨"c1", false, "u", none⟩]
  , participants := [⟨"u", "c1", ParticipantRole.admin⟩]
  , messages := [⟨"p1", "c1", "u", "a", MessageStatus.sent, false, 1⟩,
                 ⟨"p2", "c1", "u", "b", MessageStatus.sent, false, 2⟩,
                 ⟨"p3", "c1", "u", "c", MessageStatus.sent, false, 3⟩]
  , receipts := []
  , settings := [] }

/-- The response of page 1 (per_page 2) over `pageDB`. -/
def pageResp : MessagesResponse :=
  ⟨[⟨"p3", "c1", "u", "c", MessageStatus.sent, false, 3, 0⟩,
    ⟨"p2", "c1", "u", "b", MessageStatus.sent, false, 2, 0⟩], 3, 1, 2, true⟩

/-- Witness for C9's theorem at a concrete three-message state. -/
theorem pagination_has_more_consistent_witness :
    pageResp.messages.length = min 2 (pageResp.total - (1 - 1) * 2) ∧
      pageResp.has_more =
        decide ((1 - 1) * 2 + pageResp.messages.length < pageResp.total) :=
  pagination_has_more_consistent pageDB "c1" "u" 1 2 none pageResp
    (by decide) (by decide)

/-- Scenario state for the read-count claims: `m1` was sent by `u1` and
carries a single read receipt, from `u1` themself. -/
def rbcDB : DB :=
  { users := ["u1", "u2"]
  , conversations := [⟨"c1", false, "u1", none⟩]
  , participants := [⟨"u1", "c1", ParticipantRole.admin⟩, ⟨"u2", "c1", ParticipantRole.member⟩]
  , messages := [⟨"m1", "c1", "u1", "hi", MessageStatus.sent, false, 1⟩]
  , receipts := [⟨"m1", "u1"⟩]
  , settings := [] }

/-- C7 counterexample: `m1`'s receipt set is exactly the sender's own
receipt, so the count excluding the sender is 0, yet `get_message` returns
`read_by_count = 1`: the implementation's COUNT has no sender exclusion. -/
theorem read_by_count_counterexample :
    specReadByCount rbcDB "m1" "u1" = 0 ∧
      (get_message rbcDB "m1" "u2").map (fun r => r.read_by_count) =
        Except.ok 1 :=
  ⟨rfl, by decide⟩

lemma filter_length_split_sender (l : List MessageReadReceipt)
    (message_id sender_id : String) (hnd : l.Nodup) :
    (l.filter fun r => r.message_id == message_id).length =
      (l.filter fun r => r.message_id == message_id && r.user_id != sender_id).length +
        (if (⟨message_id, sender_id⟩ : MessageReadReceipt) ∈ l then 1 else 0) := by
  induction l with
  | nil => rfl
  | cons a l ih =>
    obtain ⟨hna, hnl⟩ := List.nodup_cons.mp hnd
    have hih := ih hnl
    by_cases hm : a.message_id = message_id
    · by_cases hu : a.user_id = sender_id
      · have ha2 : a = ⟨message_id, sender_id⟩ := by
          cases a
          simp_all
        subst ha2
        have hnotmem : (⟨message_id, sender_id⟩ : MessageReadReceipt) ∉ l := hna
        rw [if_neg hnotmem] at hih
        simp [List.filter_cons, hih]
      · have hne2 : (⟨message_id, sender_id⟩ : MessageReadReceipt) ≠ a := by
          intro hcontra
          rw [← hcontra] at hu
          exact hu rfl
        simp only [List.filter_cons, List.mem_cons]
        by_cases hmem : (⟨message_id, sender_id⟩ : MessageReadReceipt) ∈ l
        · rw [if_pos hmem] at hih
          simp [hm, hu, hne2, hmem, hih]
        · rw [if_neg hmem] at hih
          simp [hm, hu, hne2, hmem, hih]
    · have hne2 : (⟨message_id, sender_id⟩ : MessageReadReceipt) ≠ a := by
        intro hcontra
        rw [← hcontra] at hm
        exact hm rfl
      simp only [List.filter_cons, List.mem_cons]
      simp [hm, hne2, hih]

/-- C7 amended: the `read_by_count` returned by `get_message`, and by every
message of `get_messages_in_conversation`, equals the total number of read
receipts on the message — the receipt count excluding the sender plus one
when the sender's own receipt is present — rather than the count excluding
the sender. -/
theorem read_by_count_includes_sender :
    (∀ (db : DB) (mid uid : String) (resp : MessageResponse),
      db.receipts.Nodup → get_message db mid uid = Except.ok resp →
      resp.read_by_count = specReadByCount db resp.id resp.sender_id +
        (if (⟨resp.id, resp.sender_id⟩ : MessageReadReceipt) ∈ db.receipts
          then 1 else 0)) ∧
    (∀ (db : DB) (cid uid : String) (page per_page : Nat)
      (before_message_id : Option String) (resp : MessagesResponse),
      db.receipts.Nodup →
      get_messages_in_conversation db cid uid page per_page before_message_id =
        Except.ok resp →
      ∀ r ∈ resp.messages,
        r.read_by_count = specReadByCount db r.id r.sender_id +
          (if (⟨r.id, r.sender_id⟩ : MessageReadReceipt) ∈ db.receipts
            then 1 else 0)) := by
  constructor
  · intro db mid uid resp hnd hok
    unfold get_message at hok
    cases hf : findMessage db mid with
    | none => rw [hf] at hok; exact absurd hok (by simp)
    | some m =>
      rw [hf] at hok
      dsimp only at hok
      by_cases hdel : m.is_deleted = true
      · rw [if_pos hdel] at hok
        exact absurd hok (by simp)
      rw [if_neg hdel] at hok
      by_cases hpart : isParticipant db m.conversation_id uid = true
      case neg =>
        have hp2 : isParticipant db m.conversation_id uid = false := by
          revert hpart
          cases isParticipant db m.conversation_id uid <;> simp
        rw [if_pos (by simp [hp2])] at hok
        exact absurd hok (by simp)
      rw [if_neg (by simp [hpart])] at hok
      injection hok with hok
      subst hok
      show read_by_count_query db m.id = _
      unfold read_by_count_query specReadByCount
      exact filter_length_split_sender db.receipts m.id m.sender_id hnd
  · intro db cid uid page per_page before_message_id resp hnd hok r hr
    unfold get_messages_in_conversation at hok
    by_cases hpart : isParticipant db cid uid = true
    case neg =>
      have hp2 : isParticipant db cid uid = false := by
        revert hpart
        cases isParticipant db cid uid <;> simp
      rw [if_pos (by simp [hp2])] at hok
      exact absurd hok (by simp)
    rw [if_neg (by simp [hpart])] at hok
    injection hok with hok
    subst hok
    simp only [List.mem_map] at hr
    obtain ⟨msg, _, hmr⟩ := hr
    subst hmr
    show read_by_count_query db msg.id = _
    unfold read_by_count_query specReadByCount
    exact filter_length_split_sender db.receipts msg.id msg.sender_id hnd

/-- Witness for C7's amended theorem at the concrete self-receipt state. -/
theorem read_by_count_includes_sender_witness :
    (⟨"m1", "c1", "u1", "hi", MessageStatus.sent, false, 1, 1⟩ :
        MessageResponse).read_by_count =
      specReadByCount rbcDB "m1" "u1" +
        (if (⟨"m1", "u1"⟩ : MessageReadReceipt) ∈ rbcDB.receipts then 1 else 0) :=
  read_by_count_includes_sender.1 rbcDB "m1" "u2"
    ⟨"m1", "c1", "u1", "hi", MessageStatus.sent, false, 1, 1⟩
    (by decide) (by decide)

/-- Scenario state for the status-flip claim: one unreceipted SENT message
`m1` from `u1`; `u2` is about to mark it read. -/
def readFlipDB : DB :=
  { users := ["u1", "u2"]
  , conversations := [⟨"c1", false, "u1", none⟩]
  , participants := [⟨"u1", "c1", ParticipantRole.admin⟩, ⟨"u2", "c1", ParticipantRole.member⟩]
  , messages := [⟨"m1", "c1", "u1", "hi", MessageStatus.sent, false, 1⟩]
  , receipts := []
  , settings := [] }

/-- C4: when `u2` marks `m1` as read, `m1`'s receipts-excluding-sender count
goes from 0 to 1, but the stored status stays SENT: `mark_messages_as_read`
performs no status update (and the Python function returns `None`, while its
REST endpoint iterates the expected list of status-changed messages). -/
theorem mark_as_read_does_not_flip_status :
    specReadByCount readFlipDB "m1" "u1" = 0 ∧
      (mark_messages_as_read readFlipDB "c1" "u2" ["m1"]).map
        (fun d => (specReadByCount d "m1" "u1",
          (findMessage d "m1").map fun mm => mm.status)) =
      Except.ok (1, some MessageStatus.sent) :=
  ⟨rfl, by decide⟩

/-- The `ConversationCreate` request schema
(`app/schemas/conversation.py`). -/
structure ConversationCreate where
  name : Option String
  description : Option String
  is_group : Bool
  avatar : Option String
  participant_ids : List String
deriving DecidableEq, Repr

/-- The participant user ids of a conversation, in row order
(`conv.participants` mapped to ids). -/
def participantIdsOf (db : DB) (conversation_id : String) : List String :=
  (db.participants.filter fun p => p.conversation_id == conversation_id).map
    fun p => p.user_id

/-- `ConversationService._find_direct_conversation`: the SQL stage keeps
non-group conversations with exactly two participant rows among the two user
ids (JOIN + GROUP BY + HAVING COUNT == 2); the Python loop then returns the
first whose full participant id set equals the unordered pair. -/
def _find_direct_conversation (db : DB) (user1_id user2_id : String) :
    Option Conversation :=
  (db.conversations.filter fun c =>
      c.is_group == false &&
        ((participantIdsOf db c.id).filter fun x =>
          x == user1_id || x == user2_id).length == 2).find?
    fun c =>
      ((participantIdsOf db c.id).all fun x => x == user1_id || x == user2_id) &&
        (participantIdsOf db c.id).contains user1_id &&
        (participantIdsOf db c.id).contains user2_id

/-- `list(set(participant_ids))` followed by the force-include of the
creator, at the head of `create_conversation`. -/
def dedupWithCreator (data : ConversationCreate) (creator_id : String) :
    List String :=
  let pids := data.participant_ids.dedup
  bif pids.contains creator_id then pids else pids ++ [creator_id]

/-- `ConversationService.get_conversation`, reduced to its participant check
and conversation lookup (the response assembly adds no logic the claims
need). -/
def get_conversation (db : DB) (conversation_id user_id : String) :
    Except ApiError Conversation :=
  if !(isParticipant db conversation_id user_id) then Except.error ApiError.forbidden
  else
    match findConversationRow db conversation_id with
    | none => Except.error ApiError.notFound
    | some c => Except.ok c

/-- The INSERT block of `create_conversation`: the new conversation row plus
one participant row per id, creator ADMIN and the rest MEMBER. -/
def createdState (db : DB) (data : ConversationCreate)
    (creator_id new_id : String) (pids : List String) : DB :=
  { db with
    conversations := db.conversations ++ [⟨new_id, data.is_group, creator_id, none⟩],
    participants := db.participants ++ (pids.map fun uid =>
      Participant.mk uid new_id
        (bif uid == creator_id then ParticipantRole.admin else ParticipantRole.member)) }

/-- `ConversationService.create_conversation`: dedup + creator inclusion,
existence validation of every id, the direct-conversation dedup lookup for
non-group two-id requests, otherwise INSERT of the conversation plus one
participant row per id, finishing through `get_conversation`. -/
def create_conversation (db : DB) (data : ConversationCreate)
    (creator_id new_id : String) : Except ApiError (Conversation × DB) :=
  let pids := dedupWithCreator data creator_id
  if !(pids.all fun i => db.users.contains i) then Except.error ApiError.badRequest
  else
    match (bif !data.is_group && pids.length == 2 then
        _find_direct_conversation db (pids.getD 0 "") (pids.getD 1 "") else none) with
    | some existing =>
      match get_conversation db existing.id creator_id with
      | Except.ok c => Except.ok (c, db)
      | Except.error e => Except.error e
    | none =>
      let db2 : DB := createdState db data creator_id new_id pids
      match get_conversation db2 new_id creator_id with
      | Except.ok c => Except.ok (c, db2)
      | Except.error e => Except.error e

lemma contains_iff_mem {α : Type} [BEq α] [LawfulBEq α] (l : List α) (a : α) :
    l.contains a = true ↔ a ∈ l := by
  simp [List.contains, List.elem_iff]

lemma creator_mem_dedupWithCreator (data : ConversationCreate)
    (creator_id : String) : creator_id ∈ dedupWithCreator data creator_id := by
  unfold dedupWithCreator
  dsimp only
  cases hc : data.participant_ids.dedup.contains creator_id with
  | true =>
    exact (contains_iff_mem _ _).mp hc
  | false =>
    exact List.mem_append_right _ (List.mem_singleton.mpr rfl)

/-- Scenario state for the participant-arity claim: three existing users, no
conversations yet. -/
def grpDB : DB :=
  { users := ["a", "b", "c"]
  , conversations := []
  , participants := []
  , messages := []
  , receipts := []
  , settings := [] }

/-- C5 counterexample: a `create_conversation` request with `is_group =
false` and three distinct existing users succeeds and creates a non-group
conversation with three participant rows — the code never checks that a
non-group request carries exactly two ids. -/
theorem non_group_three_participants :
    (create_conversation grpDB ⟨none, none, false, none, ["a", "b", "c"]⟩ "a" "cv1").map
      (fun r => (r.1.is_group, participantIdsOf r.2 "cv1")) =
      Except.ok (false, ["a", "b", "c"]) ∧
      (["a", "b", "c"] : List String).length ≠ 2 :=
  ⟨by decide, by decide⟩

/-- C5 amended: on the creation path, `create_conversation` INSERTs exactly
one participant row per id of the creator-inclusive deduplicated list, so a
non-group conversation gets exactly 2 participant rows precisely when that
list has exactly 2 ids; the code itself never enforces the arity. -/
theorem create_conversation_direct_two_participants
    (db : DB) (data : ConversationCreate) (creator_id new_id a b : String)
    (c : Conversation) (db2 : DB)
    (hg : data.is_group = false)
    (hlist : dedupWithCreator data creator_id = [a, b])
    (hnone : _find_direct_conversation db a b = none)
    (hfreshp : ∀ p ∈ db.participants, p.conversation_id ≠ new_id)
    (hfreshc : ∀ cv ∈ db.conversations, cv.id ≠ new_id)
    (hok : create_conversation db data creator_id new_id = Except.ok (c, db2)) :
    c.id = new_id ∧ c.is_group = false ∧ participantIdsOf db2 new_id = [a, b] := by
  unfold create_conversation at hok
  rw [hlist] at hok
  dsimp only at hok
  by_cases husers : (([a, b] : List String).all fun i => db.users.contains i) = true
  case neg =>
    have h2 : (([a, b] : List String).all fun i => db.users.contains i) = false := by
      revert husers
      cases ([a, b] : List String).all fun i => db.users.contains i <;> simp
    rw [if_pos (by rw [h2]; decide)] at hok
    exact absurd hok (by simp)
  rw [if_neg (by rw [husers]; decide), hg] at hok
  rw [show (bif !false && (([a, b] : List String).length == 2) then
      _find_direct_conversation db (([a, b] : List String).getD 0 "")
        (([a, b] : List String).getD 1 "") else none) = none from hnone] at hok
  dsimp only at hok
  have hcrmem : creator_id ∈ ([a, b] : List String) := by
    rw [← hlist]
    exact creator_mem_dedupWithCreator data creator_id
  have hpartrow : isParticipant (createdState db data creator_id new_id [a, b])
      new_id creator_id = true := by
    unfold isParticipant createdState
    rw [List.any_eq_true]
    refine ⟨Participant.mk creator_id new_id
      (bif creator_id == creator_id then ParticipantRole.admin
        else ParticipantRole.member), ?_, by simp⟩
    refine List.mem_append_right _ ?_
    exact List.mem_map.mpr ⟨creator_id, hcrmem, rfl⟩
  have hfindrow : findConversationRow (createdState db data creator_id new_id [a, b])
      new_id = some ⟨new_id, data.is_group, creator_id, none⟩ := by
    unfold findConversationRow createdState
    show (db.conversations ++ [(⟨new_id, data.is_group, creator_id, none⟩ : Conversation)]).find?
      (fun cv => cv.id == new_id) = _
    refine find?_append_of_none _ _ _ ?_ (by simp)
    rw [List.find?_eq_none]
    intro cv hcv
    simp [hfreshc cv hcv]
  unfold get_conversation at hok
  rw [if_neg (by simp [hpartrow]), hfindrow] at hok
  dsimp only at hok
  injection hok with hok
  injection hok with hc hdb2
  constructor
  · rw [← hc]
  constructor
  · rw [← hc, hg]
  · rw [← hdb2]
    unfold participantIdsOf createdState
    show ((db.participants ++ ([a, b].map fun uid =>
      Participant.mk uid new_id
        (bif uid == creator_id then ParticipantRole.admin
          else ParticipantRole.member))).filter
        fun p => p.conversation_id == new_id).map (fun p => p.user_id) = [a, b]
    rw [List.filter_append]
    have hold : db.participants.filter (fun p => p.conversation_id == new_id) = [] := by
      rw [List.filter_eq_nil_iff]
      intro p hp
      simp [hfreshp p hp]
    have hnew : (([a, b].map fun uid =>
        Participant.mk uid new_id
          (bif uid == creator_id then ParticipantRole.admin
            else ParticipantRole.member)).filter
        fun p => p.conversation_id == new_id) =
        ([a, b].map fun uid =>
          Participant.mk uid new_id
            (bif uid == creator_id then ParticipantRole.admin
              else ParticipantRole.member)) := by
      rw [List.filter_eq_self]
      intro p hp
      obtain ⟨uid, _, hpu⟩ := List.mem_map.mp hp
      rw [← hpu]
      simp
    rw [hold, hnew, List.nil_append, List.map_map]
    rfl

/-- The state after the witness creation call over `grpDB`. -/
def grpDB2 : DB :=
  { users := ["a", "b", "c"]
  , conversations := [⟨"cv1", false, "a", none⟩]
  , participants := [⟨"a", "cv1", ParticipantRole.admin⟩, ⟨"b", "cv1", ParticipantRole.member⟩]
  , messages := []
  , receipts := []
  , settings := [] }

/-- Witness for C5's amended theorem at a concrete two-id request. -/
theorem create_conversation_direct_two_participants_witness :
    (⟨"cv1", false, "a", none⟩ : Conversation).id = "cv1" ∧
      (⟨"cv1", false, "a", none⟩ : Conversation).is_group = false ∧
      participantIdsOf grpDB2 "cv1" = ["a", "b"] :=
  create_conversation_direct_two_participants grpDB
    ⟨none, none, false, none, ["a", "b"]⟩ "a" "cv1" "a" "b"
    ⟨"cv1", false, "a", none⟩ grpDB2 rfl (by decide) (by decide)
    (by decide) (by decide) (by decide)

lemma find?_congr {α : Type} {p q : α → Bool} (l : List α)
    (h : ∀ x ∈ l, p x = q x) : l.find? p = l.find? q := by
  induction l with
  | nil => rfl
  | cons a l ih =>
    cases hp : p a with
    | true =>
      rw [List.find?_cons_of_pos _ hp,
        List.find?_cons_of_pos _ (by rw [← h a (List.mem_cons_self a l)]; exact hp)]
    | false =>
      rw [List.find?_cons_of_neg _ (by simp [hp]),
        List.find?_cons_of_neg _
          (by rw [← h a (List.mem_cons_self a l)]; simp [hp])]
      exact ih fun x hx => h x (List.mem_cons_of_mem a hx)

lemma all_congr {α : Type} (p q : α → Bool) (l : List α)
    (h : ∀ x ∈ l, p x = q x) : l.all p = l.all q := by
  induction l with
  | nil => rfl
  | cons a l ih =>
    rw [List.all_cons, List.all_cons, h a (List.mem_cons_self a l),
      ih fun x hx => h x (List.mem_cons_of_mem a hx)]

/-- The direct-conversation lookup is symmetric in the two user ids. -/
lemma find_direct_comm (db : DB) (u1 u2 : String) :
    _find_direct_conversation db u1 u2 = _find_direct_conversation db u2 u1 := by
  unfold _find_direct_conversation
  have hfe : ∀ cv : Conversation,
      (cv.is_group == false &&
        ((participantIdsOf db cv.id).filter fun x => x == u1 || x == u2).length == 2) =
      (cv.is_group == false &&
        ((participantIdsOf db cv.id).filter fun x => x == u2 || x == u1).length == 2) := by
    intro cv
    rw [List.filter_congr fun x _ => Bool.or_comm (x == u1) (x == u2)]
  have hpe : ∀ cv : Conversation,
      (((participantIdsOf db cv.id).all fun x => x == u1 || x == u2) &&
        (participantIdsOf db cv.id).contains u1 &&
        (participantIdsOf db cv.id).contains u2) =
      (((participantIdsOf db cv.id).all fun x => x == u2 || x == u1) &&
        (participantIdsOf db cv.id).contains u2 &&
        (participantIdsOf db cv.id).contains u1) := by
    intro cv
    rw [all_congr _ _ _ fun x _ => Bool.or_comm (x == u1) (x == u2),
      Bool.and_right_comm]
  rw [List.filter_congr fun cv _ => hfe cv]
  exact find?_congr _ fun cv _ => hpe cv

lemma isParticipant_of_contains (db : DB) (conversation_id u : String)
    (h : (participantIdsOf db conversation_id).contains u = true) :
    isParticipant db conversation_id u = true := by
  unfold isParticipant
  rw [List.any_eq_true]
  have hm := (contains_iff_mem _ _).mp h
  unfold participantIdsOf at hm
  obtain ⟨p, hp, hpu⟩ := List.mem_map.mp hm
  obtain ⟨hpmem, hpc⟩ := List.mem_filter.mp hp
  exact ⟨p, hpmem, by simp [hpc, hpu]⟩

lemma isParticipant_createdState (db : DB) (data : ConversationCreate)
    (creator_id new_id u : String) (pids : List String) (hmem : u ∈ pids) :
    isParticipant (createdState db data creator_id new_id pids) new_id u = true := by
  unfold isParticipant createdState
  rw [List.any_eq_true]
  exact ⟨Participant.mk u new_id
    (bif u == creator_id then ParticipantRole.admin else ParticipantRole.member),
    List.mem_append_right _ (List.mem_map.mpr ⟨u, hmem, rfl⟩), by simp⟩

lemma findConversationRow_createdState (db : DB) (data : ConversationCreate)
    (creator_id new_id : String) (pids : List String)
    (hfreshc : ∀ cv ∈ db.conversations, cv.id ≠ new_id) :
    findConversationRow (createdState db data creator_id new_id pids) new_id =
      some ⟨new_id, data.is_group, creator_id, none⟩ := by
  unfold findConversationRow createdState
  show (db.conversations ++
    [(⟨new_id, data.is_group, creator_id, none⟩ : Conversation)]).find?
    (fun cv => cv.id == new_id) = _
  refine find?_append_of_none _ _ _ ?_ (by simp)
  rw [List.find?_eq_none]
  intro cv hcv
  simp [hfreshc cv hcv]

lemma participantIdsOf_createdState (db : DB) (data : ConversationCreate)
    (creator_id new_id : String) (pids : List String)
    (hfreshp : ∀ p ∈ db.participants, p.conversation_id ≠ new_id) :
    participantIdsOf (createdState db data creator_id new_id pids) new_id = pids := by
  unfold participantIdsOf createdState
  show ((db.participants ++ (pids.map fun uid =>
    Participant.mk uid new_id
      (bif uid == creator_id then ParticipantRole.admin
        else ParticipantRole.member))).filter
      fun p => p.conversation_id == new_id).map (fun p => p.user_id) = pids
  rw [List.filter_append]
  have hold : db.participants.filter (fun p => p.conversation_id == new_id) = [] := by
    rw [List.filter_eq_nil_iff]
    intro p hp
    simp [hfreshp p hp]
  have hnew : ((pids.map fun uid =>
      Participant.mk uid new_id
        (bif uid == creator_id then ParticipantRole.admin
          else ParticipantRole.member)).filter
      fun p => p.conversation_id == new_id) =
      (pids.map fun uid =>
        Participant.mk uid new_id
          (bif uid == creator_id then ParticipantRole.admin
            else ParticipantRole.member)) := by
    rw [List.filter_eq_self]
    intro p hp
    obtain ⟨uid, _, hpu⟩ := List.mem_map.mp hp
    rw [← hpu]
    simp
  rw [hold, hnew, List.nil_append, List.map_map]
  have hcomp : ((fun (p : Participant) => p.user_id) ∘ fun uid =>
      Participant.mk uid new_id
        (bif uid == creator_id then ParticipantRole.admin
          else ParticipantRole.member)) = fun uid => uid := rfl
  rw [hcomp]
  exact List.map_id' pids

lemma participantIdsOf_createdState_other (db : DB) (data : ConversationCreate)
    (creator_id new_id : String) (pids : List String) (cid : String)
    (hne : cid ≠ new_id) :
    participantIdsOf (createdState db data creator_id new_id pids) cid =
      participantIdsOf db cid := by
  unfold participantIdsOf createdState
  show ((db.participants ++ (pids.map fun uid =>
    Participant.mk uid new_id
      (bif uid == creator_id then ParticipantRole.admin
        else ParticipantRole.member))).filter
      fun p => p.conversation_id == cid).map (fun p => p.user_id) = _
  rw [List.filter_append]
  have hnil : ((pids.map fun uid =>
      Participant.mk uid new_id
        (bif uid == creator_id then ParticipantRole.admin
          else ParticipantRole.member)).filter
      fun p => p.conversation_id == cid) = [] := by
    rw [List.filter_eq_nil_iff]
    intro p hp
    obtain ⟨uid, _, hpu⟩ := List.mem_map.mp hp
    rw [← hpu]
    simp [Ne.symm hne]
  rw [hnil, List.append_nil]

/-- C6: two successive non-group `create_conversation` calls whose
creator-inclusive deduplicated id lists form the same unordered pair return
the same conversation, and the second call leaves the state unchanged: the
direct-conversation lookup finds the non-group conversation whose
participant set equals exactly the pair. -/
theorem direct_conversation_create_idempotent
    (db : DB) (d1 d2 : ConversationCreate) (cr1 cr2 i1 i2 a b : String)
    (c1 : Conversation) (db1 : DB)
    (hg1 : d1.is_group = false) (hg2 : d2.is_group = false)
    (hl1 : dedupWithCreator d1 cr1 = [a, b])
    (hl2 : dedupWithCreator d2 cr2 = [a, b] ∨ dedupWithCreator d2 cr2 = [b, a])
    (hfc : ∀ cv ∈ db.conversations, cv.id ≠ i1)
    (hfp : ∀ p ∈ db.participants, p.conversation_id ≠ i1)
    (h1 : create_conversation db d1 cr1 i1 = Except.ok (c1, db1)) :
    create_conversation db1 d2 cr2 i2 = Except.ok (c1, db1) := by
  unfold create_conversation at h1
  rw [hl1] at h1
  dsimp only at h1
  by_cases husers : (([a, b] : List String).all fun i => db.users.contains i) = true
  case neg =>
    have h2 : (([a, b] : List String).all fun i => db.users.contains i) = false := by
      revert husers
      cases ([a, b] : List String).all fun i => db.users.contains i <;> simp
    rw [if_pos (by rw [h2]; decide)] at h1
    exact absurd h1 (by simp)
  obtain ⟨hua, hub⟩ : db.users.contains a = true ∧ db.users.contains b = true := by
    simpa only [List.all_cons, List.all_nil, Bool.and_true, Bool.and_eq_true]
      using husers
  rw [if_neg (by rw [husers]; decide), hg1] at h1
  have hcr1 : cr1 ∈ ([a, b] : List String) := by
    rw [← hl1]
    exact creator_mem_dedupWithCreator d1 cr1
  have hcr2 : cr2 ∈ ([a, b] : List String) := by
    cases hl2 with
    | inl h => rw [← h]; exact creator_mem_dedupWithCreator d2 cr2
    | inr h =>
      have := creator_mem_dedupWithCreator d2 cr2
      rw [h] at this
      simp only [List.mem_cons, List.mem_singleton] at this ⊢
      tauto
  cases hfind : _find_direct_conversation db a b with
  | some E =>
    rw [show (bif !false && (([a, b] : List String).length == 2) then
        _find_direct_conversation db (([a, b] : List String).getD 0 "")
          (([a, b] : List String).getD 1 "") else none) = some E from hfind] at h1
    dsimp only at h1
    have hfind' : (db.conversations.filter fun cv =>
        cv.is_group == false && (((participantIdsOf db cv.id).filter fun x =>
          x == a || x == b).length == 2)).find?
        (fun cv => ((participantIdsOf db cv.id).all fun x => x == a || x == b) &&
          (participantIdsOf db cv.id).contains a &&
          (participantIdsOf db cv.id).contains b) = some E := hfind
    have hpredE := List.find?_some hfind'
    simp only [Bool.and_eq_true] at hpredE
    have hpartEa : isParticipant db E.id a = true :=
      isParticipant_of_contains db E.id a hpredE.1.2
    have hpartEb : isParticipant db E.id b = true :=
      isParticipant_of_contains db E.id b hpredE.2
    have hpartE : ∀ u ∈ ([a, b] : List String), isParticipant db E.id u = true := by
      intro u hu
      simp only [List.mem_cons, List.not_mem_nil, or_false] at hu
      cases hu with
      | inl h => rw [h]; exact hpartEa
      | inr h => rw [h]; exact hpartEb
    cases hgc : get_conversation db E.id cr1 with
    | error e =>
      rw [hgc] at h1
      exact absurd h1 (by simp)
    | ok c =>
      rw [hgc] at h1
      dsimp only at h1
      injection h1 with h1
      injection h1 with hcc hdb
      subst hdb
      subst hcc
      unfold create_conversation
      have hgc2 : get_conversation db E.id cr2 = Except.ok c := by
        unfold get_conversation at hgc ⊢
        rw [if_neg (by simp [hpartE cr2 hcr2])]
        rw [if_neg (by simp [hpartE cr1 hcr1])] at hgc
        exact hgc
      cases hl2 with
      | inl hl2 =>
        rw [hl2]
        dsimp only
        rw [if_neg (by rw [husers]; decide), hg2]
        rw [show (bif !false && (([a, b] : List String).length == 2) then
            _find_direct_conversation db (([a, b] : List String).getD 0 "")
              (([a, b] : List String).getD 1 "") else none) = some E from hfind]
        dsimp only
        rw [hgc2]
      | inr hl2 =>
        rw [hl2]
        dsimp only
        have hall2 : (([b, a] : List String).all fun i => db.users.contains i) = true := by
          rw [List.all_cons, List.all_cons, List.all_nil, hua, hub]
          rfl
        rw [if_neg (by rw [hall2]; decide), hg2]
        have hfindba : _find_direct_conversation db b a = some E := by
          rw [find_direct_comm]
          exact hfind
        rw [show (bif !false && (([b, a] : List String).length == 2) then
            _find_direct_conversation db (([b, a] : List String).getD 0 "")
              (([b, a] : List String).getD 1 "") else none) = some E from hfindba]
        dsimp only
        rw [hgc2]
  | none =>
    rw [show (bif !false && (([a, b] : List String).length == 2) then
        _find_direct_conversation db (([a, b] : List String).getD 0 "")
          (([a, b] : List String).getD 1 "") else none) = none from hfind] at h1
    dsimp only at h1
    have hpartrow : isParticipant (createdState db d1 cr1 i1 [a, b]) i1 cr1 = true :=
      isParticipant_createdState db d1 cr1 i1 cr1 [a, b] hcr1
    have hfindrow := findConversationRow_createdState db d1 cr1 i1 [a, b] hfc
    unfold get_conversation at h1
    rw [if_neg (by simp [hpartrow]), hfindrow] at h1
    dsimp only at h1
    injection h1 with h1
    injection h1 with hcc hdb
    subst hdb
    subst hcc
    have hids : participantIdsOf (createdState db d1 cr1 i1 [a, b]) i1 = [a, b] :=
      participantIdsOf_createdState db d1 cr1 i1 [a, b] hfp
    have hfind2 : _find_direct_conversation (createdState db d1 cr1 i1 [a, b]) a b =
        some ⟨i1, d1.is_group, cr1, none⟩ := by
      unfold _find_direct_conversation
      show (((createdState db d1 cr1 i1 [a, b]).conversations).filter fun cv =>
        cv.is_group == false &&
          (((participantIdsOf (createdState db d1 cr1 i1 [a, b]) cv.id).filter fun x =>
            x == a || x == b).length == 2)).find?
        (fun cv =>
          ((participantIdsOf (createdState db d1 cr1 i1 [a, b]) cv.id).all fun x =>
            x == a || x == b) &&
          (participantIdsOf (createdState db d1 cr1 i1 [a, b]) cv.id).contains a &&
          (participantIdsOf (createdState db d1 cr1 i1 [a, b]) cv.id).contains b) = _
      have hconvs : (createdState db d1 cr1 i1 [a, b]).conversations =
          db.conversations ++ [⟨i1, d1.is_group, cr1, none⟩] := rfl
      rw [hconvs, List.filter_append]
      have hfilterOld : db.conversations.filter (fun cv =>
          cv.is_group == false &&
            (((participantIdsOf (createdState db d1 cr1 i1 [a, b]) cv.id).filter fun x =>
              x == a || x == b).length == 2)) =
          db.conversations.filter (fun cv =>
            cv.is_group == false &&
              (((participantIdsOf db cv.id).filter fun x =>
                x == a || x == b).length == 2)) := by
        refine List.filter_congr fun cv hcv => ?_
        rw [participantIdsOf_createdState_other db d1 cr1 i1 [a, b] cv.id (hfc cv hcv)]
      rw [hfilterOld]
      have hnewpass : ((⟨i1, d1.is_group, cr1, none⟩ : Conversation).is_group == false &&
          (((participantIdsOf (createdState db d1 cr1 i1 [a, b])
            (⟨i1, d1.is_group, cr1, none⟩ : Conversation).id).filter fun x =>
              x == a || x == b).length == 2)) = true := by
        show (d1.is_group == false &&
          (((participantIdsOf (createdState db d1 cr1 i1 [a, b]) i1).filter fun x =>
            x == a || x == b).length == 2)) = true
        rw [hids, hg1]
        simp
      have hfilterNew : ([(⟨i1, d1.is_group, cr1, none⟩ : Conversation)].filter fun cv =>
          cv.is_group == false &&
            (((participantIdsOf (createdState db d1 cr1 i1 [a, b]) cv.id).filter fun x =>
              x == a || x == b).length == 2)) =
          [(⟨i1, d1.is_group, cr1, none⟩ : Conversation)] := by
        rw [List.filter_eq_self]
        intro cv hcv
        rw [List.mem_singleton] at hcv
        rw [hcv]
        exact hnewpass
      rw [hfilterNew]
      refine find?_append_of_none _ _ _ ?_ ?_
      · rw [List.find?_eq_none]
        intro cv hcv
        have hcvmem : cv ∈ db.conversations := (List.mem_filter.mp hcv).1
        have hcvold :
            participantIdsOf (createdState db d1 cr1 i1 [a, b]) cv.id =
              participantIdsOf db cv.id :=
          participantIdsOf_createdState_other db d1 cr1 i1 [a, b] cv.id (hfc cv hcvmem)
        rw [hcvold]
        have hnone' : (db.conversations.filter fun cv =>
            cv.is_group == false && (((participantIdsOf db cv.id).filter fun x =>
              x == a || x == b).length == 2)).find?
            (fun cv => ((participantIdsOf db cv.id).all fun x => x == a || x == b) &&
              (participantIdsOf db cv.id).contains a &&
              (participantIdsOf db cv.id).contains b) = none := hfind
        rw [List.find?_eq_none] at hnone'
        exact hnone' cv hcv
      · show (((participantIdsOf (createdState db d1 cr1 i1 [a, b]) i1).all fun x =>
            x == a || x == b) &&
          (participantIdsOf (createdState db d1 cr1 i1 [a, b]) i1).contains a &&
          (participantIdsOf (createdState db d1 cr1 i1 [a, b]) i1).contains b) = true
        rw [hids]
        simp
    unfold create_conversation
    have hpart2 : isParticipant (createdState db d1 cr1 i1 [a, b]) i1 cr2 = true :=
      isParticipant_createdState db d1 cr1 i1 cr2 [a, b] hcr2
    have hget2 : get_conversation (createdState db d1 cr1 i1 [a, b]) i1 cr2 =
        Except.ok ⟨i1, d1.is_group, cr1, none⟩ := by
      unfold get_conversation
      rw [if_neg (by simp [hpart2]), hfindrow]
    have huab2 : ∀ l : List String, l = [a, b] ∨ l = [b, a] →
        ((l.all fun i => (createdState db d1 cr1 i1 [a, b]).users.contains i) = true) := by
      intro l hl
      have husers2 : (createdState db d1 cr1 i1 [a, b]).users = db.users := rfl
      rw [husers2]
      cases hl with
      | inl h => rw [h, List.all_cons, List.all_cons, List.all_nil, hua, hub]; rfl
      | inr h => rw [h, List.all_cons, List.all_cons, List.all_nil, hub, hua]; rfl
    cases hl2 with
    | inl hl2 =>
      rw [hl2]
      dsimp only
      rw [if_neg (by rw [huab2 [a, b] (Or.inl rfl)]; decide), hg2]
      rw [show (bif !false && (([a, b] : List String).length == 2) then
          _find_direct_conversation (createdState db d1 cr1 i1 [a, b])
            (([a, b] : List String).getD 0 "")
            (([a, b] : List String).getD 1 "") else none) =
          some ⟨i1, d1.is_group, cr1, none⟩ from hfind2]
      dsimp only
      rw [hget2]
    | inr hl2 =>
      rw [hl2]
      dsimp only
      rw [if_neg (by rw [huab2 [b, a] (Or.inr rfl)]; decide), hg2]
      have hfind2ba : _find_direct_conversation (createdState db d1 cr1 i1 [a, b]) b a =
          some ⟨i1, d1.is_group, cr1, none⟩ := by
        rw [find_direct_comm]
        exact hfind2
      rw [show (bif !false && (([b, a] : List String).length == 2) then
          _find_direct_conversation (createdState db d1 cr1 i1 [a, b])
            (([b, a] : List String).getD 0 "")
            (([b, a] : List String).getD 1 "") else none) =
          some ⟨i1, d1.is_group, cr1, none⟩ from hfind2ba]
      dsimp only
      rw [hget2]

/-- The direct conversation created by the witness's first call. -/
def dupConv : Conversation := ⟨"cv1", false, "a", none⟩

/-- The state after the witness's first creation call. -/
def dupDB1 : DB :=
  { users := ["a", "b", "c"]
  , conversations := [⟨"cv1", false, "a", none⟩]
  , participants := [⟨"a", "cv1", ParticipantRole.admin⟩, ⟨"b", "cv1", ParticipantRole.member⟩]
  , messages := []
  , receipts := []
  , settings := [] }

/-- Witness for C6 at a concrete pair of requests over `grpDB`-like state. -/
theorem direct_conversation_create_idempotent_witness :
    create_conversation dupDB1 ⟨none, none, false, none, ["b", "a"]⟩ "b" "cv2" =
      Except.ok (dupConv, dupDB1) :=
  direct_conversation_create_idempotent
    ⟨["a", "b", "c"], [], [], [], [], []⟩
    ⟨none, none, false, none, ["a", "b"]⟩ ⟨none, none, false, none, ["b", "a"]⟩
    "a" "b" "cv1" "cv2" "a" "b" dupConv dupDB1 rfl rfl (by decide)
    (Or.inr (by decide)) (by decide) (by decide) (by decide)

/-- A live websocket connection handle (opaque id). -/
abbrev Conn := Nat

/-- The result of one `send_text` attempt during a broadcast:
delivered, raised `WebSocketDisconnect`, or raised some other exception. -/
inductive SendOutcome
  | delivered
  | disconnected
  | failed
deriving DecidableEq, Repr

/-- `WebSocketManager.active_connections`
(`app/services/websocket_manager.py`): conversation id to connection list. -/
abbrev Registry := List (String × List Conn)

def regLookup (reg : Registry) (conversation_id : String) : Option (List Conn) :=
  (reg.find? fun kv => kv.1 == conversation_id).map fun kv => kv.2

def regSet (reg : Registry) (conversation_id : String) (conns : List Conn) :
    Registry :=
  reg.map fun kv => bif kv.1 == conversation_id then (kv.1, conns) else kv

def regDelete (reg : Registry) (conversation_id : String) : Registry :=
  reg.filter fun kv => kv.1 != conversation_id

/-- `WebSocketManager.connect`: append the connection to the conversation's
bucket, creating the bucket when absent. -/
def ws_connect (reg : Registry) (conversation_id : String) (conn : Conn) :
    Registry :=
  match regLookup reg conversation_id with
  | none => reg ++ [(conversation_id, [conn])]
  | some conns => regSet reg conversation_id (conns ++ [conn])

/-- `WebSocketManager.disconnect`: remove the connection when present
(`ValueError` on a missing connection leaves the registry unchanged) and
delete the conversation bucket once empty. -/
def ws_disconnect (reg : Registry) (conversation_id : String) (conn : Conn) :
    Registry :=
  match regLookup reg conversation_id with
  | none => reg
  | some conns =>
    if conns.contains conn then
      let remaining := conns.erase conn
      bif remaining.isEmpty then regDelete reg conversation_id
      else regSet reg conversation_id remaining
    else reg

/-- `WebSocketManager.broadcast_message`: attempt a send to every connection
of the conversation except `exclude_websocket`; the connections whose send
raised `WebSocketDisconnect` are collected and each removed afterwards;
other send failures are only logged and the connection stays registered; the
bucket is deleted once empty.  Returns the new registry and the list of
connections a send was attempted on. -/
def broadcast_message (reg : Registry) (conversation_id : String)
    (send : Conn → SendOutcome) (exclude_websocket : Option Conn) :
    Registry × List Conn :=
  match regLookup reg conversation_id with
  | none => (reg, [])
  | some conns =>
    let targets := conns.filter fun c => !(exclude_websocket == some c)
    let disconnected_websockets := targets.filter fun c =>
      send c == SendOutcome.disconnected
    let remaining := disconnected_websockets.foldl (fun acc c => acc.erase c) conns
    bif remaining.isEmpty then (regDelete reg conversation_id, targets)
    else (regSet reg conversation_id remaining, targets)

/-- No conversation key maps to an empty connection list. -/
def noEmptyBuckets (reg : Registry) : Prop :=
  ∀ kv ∈ reg, kv.2 ≠ []

/-- C8 counterexample: the only registered connection's send fails with a
generic (non-disconnect) error; the claim says every connection whose send
fails is removed in the same pass, yet the registry still holds it after the
broadcast. -/
theorem broadcast_failed_send_not_removed :
    broadcast_message [("X", [1])] "X" (fun _ => SendOutcome.failed) none =
      ([("X", [1])], [1]) := by decide

lemma contains_filter_of_mem {x : Conn} (l : List Conn) (p : Conn → Bool)
    (hx : x ∈ l) : (l.filter p).contains x = p x := by
  cases hp : p x with
  | true => exact (contains_iff_mem _ _).mpr (List.mem_filter.mpr ⟨hx, hp⟩)
  | false =>
    cases hc : (l.filter p).contains x with
    | false => rfl
    | true =>
      have h2 := (List.mem_filter.mp ((contains_iff_mem _ _).mp hc)).2
      rw [hp] at h2
      exact absurd h2 (by simp)

lemma foldl_erase_eq_filter (d l : List Conn) (hnd : l.Nodup) :
    d.foldl (fun acc c => acc.erase c) l = l.filter fun x => !(d.contains x) := by
  induction d generalizing l with
  | nil =>
    simp only [List.foldl_nil]
    rw [eq_comm, List.filter_eq_self]
    intro x _
    rfl
  | cons c d ih =>
    rw [List.foldl_cons, hnd.erase_eq_filter c, ih _ (hnd.filter _),
      List.filter_filter]
    refine List.filter_congr fun x _ => ?_
    rw [List.contains_cons]
    cases hxc : (x == c) <;> cases hdx : d.contains x <;>
      simp [show (x != c) = !(x == c) from rfl, hxc, hdx]

lemma regLookup_regSet (reg : Registry) (k : String) (v : List Conn) :
    regLookup (regSet reg k v) k = (regLookup reg k).map fun _ => v := by
  unfold regLookup regSet
  induction reg with
  | nil => rfl
  | cons kv reg ih =>
    simp only [List.map_cons]
    cases hk : (kv.1 == k) with
    | true =>
      rw [cond_true,
        List.find?_cons_of_pos (p := fun (kv : String × List Conn) => kv.1 == k)
          (a := (kv.1, v)) _ (show ((kv.1, v).1 == k) = true from hk),
        List.find?_cons_of_pos (p := fun (kv : String × List Conn) => kv.1 == k) _ hk]
      rfl
    | false =>
      rw [cond_false,
        List.find?_cons_of_neg (p := fun (kv : String × List Conn) => kv.1 == k) _ (by simp [hk]),
        List.find?_cons_of_neg (p := fun (kv : String × List Conn) => kv.1 == k) _ (by simp [hk])]
      exact ih

lemma regLookup_regDelete (reg : Registry) (k : String) :
    regLookup (regDelete reg k) k = none := by
  unfold regLookup regDelete
  have hnone : (reg.filter fun kv => kv.1 != k).find? (fun kv => kv.1 == k) =
      none := by
    rw [List.find?_eq_none]
    intro kv hkv
    have h2 := (List.mem_filter.mp hkv).2
    rw [bne_iff_ne] at h2
    simp [beq_eq_false_iff_ne.mpr h2]
  rw [hnone]
  rfl

lemma noEmptyBuckets_regDelete (reg : Registry) (k : String)
    (h : noEmptyBuckets reg) : noEmptyBuckets (regDelete reg k) := by
  intro kv hkv
  exact h kv (List.mem_filter.mp hkv).1

lemma noEmptyBuckets_regSet (reg : Registry) (k : String) (v : List Conn)
    (h : noEmptyBuckets reg) (hv : v ≠ []) : noEmptyBuckets (regSet reg k v) := by
  intro kv hkv
  unfold regSet at hkv
  obtain ⟨kv0, hkv0, hmap⟩ := List.mem_map.mp hkv
  cases hk : (kv0.1 == k) with
  | true =>
    rw [hk, cond_true] at hmap
    rw [← hmap]
    exact hv
  | false =>
    rw [hk, cond_false] at hmap
    rw [← hmap]
    exact h kv0 hkv0

lemma noEmptyBuckets_ws_disconnect (reg : Registry) (cid : String) (w : Conn)
    (h : noEmptyBuckets reg) : noEmptyBuckets (ws_disconnect reg cid w) := by
  unfold ws_disconnect
  cases regLookup reg cid with
  | none => exact h
  | some conns =>
    dsimp only
    by_cases hc : conns.contains w = true
    · rw [if_pos hc]
      cases he : (conns.erase w).isEmpty with
      | true => exact noEmptyBuckets_regDelete reg cid h
      | false =>
        exact noEmptyBuckets_regSet reg cid _ h (List.isEmpty_eq_false.mp he)
    · rw [if_neg hc]
      exact h

/-- C8 amended: a broadcast attempts a send to every connection registered
under the conversation except `exclude_websocket`; only connections whose
send raised a disconnect are removed in the same pass (a generic send error
leaves the connection registered); the conversation bucket is removed once
empty, and neither broadcast nor disconnect ever leaves a key mapping to an
empty connection list. -/
theorem broadcast_semantics
    (reg : Registry) (conversation_id : String) (send : Conn → SendOutcome)
    (exclude_websocket : Option Conn) (conns : List Conn)
    (hconns : regLookup reg conversation_id = some conns)
    (hnd : conns.Nodup)
    (hinv : noEmptyBuckets reg) :
    (broadcast_message reg conversation_id send exclude_websocket).2 =
        conns.filter (fun c => !(exclude_websocket == some c)) ∧
      regLookup (broadcast_message reg conversation_id send exclude_websocket).1
          conversation_id =
        (let survivors := conns.filter fun c =>
          exclude_websocket == some c || !(send c == SendOutcome.disconnected)
        bif survivors.isEmpty then none else some survivors) ∧
      noEmptyBuckets (broadcast_message reg conversation_id send
        exclude_websocket).1 ∧
      (∀ (reg2 : Registry) (cid : String) (w : Conn), noEmptyBuckets reg2 →
        noEmptyBuckets (ws_disconnect reg2 cid w)) := by
  unfold broadcast_message
  rw [hconns]
  dsimp only
  have hrem : ((conns.filter fun c => !(exclude_websocket == some c)).filter
      (fun c => send c == SendOutcome.disconnected)).foldl
      (fun acc c => acc.erase c) conns =
      conns.filter fun c =>
        exclude_websocket == some c || !(send c == SendOutcome.disconnected) := by
    rw [foldl_erase_eq_filter _ _ hnd, List.filter_filter]
    refine List.filter_congr fun x hx => ?_
    rw [contains_filter_of_mem conns _ hx]
    cases exclude_websocket == some x <;>
      cases send x == SendOutcome.disconnected <;> rfl
  rw [hrem]
  cases hempty : (conns.filter fun c => exclude_websocket == some c ||
      !(send c == SendOutcome.disconnected)).isEmpty with
  | true =>
    simp only [cond_true]
    exact ⟨trivial, regLookup_regDelete reg conversation_id,
      noEmptyBuckets_regDelete reg conversation_id hinv,
      fun reg2 cid w h => noEmptyBuckets_ws_disconnect reg2 cid w h⟩
  | false =>
    simp only [cond_false]
    refine ⟨trivial, ?_, noEmptyBuckets_regSet reg conversation_id _ hinv
      (List.isEmpty_eq_false.mp hempty),
      fun reg2 cid w h => noEmptyBuckets_ws_disconnect reg2 cid w h⟩
    rw [regLookup_regSet, hconns]
    rfl

/-- Witness for C8's amended theorem: two connections, one disconnecting
during the send; the attempted list covers both and only the disconnected
one is removed. -/
theorem broadcast_semantics_witness :
    (broadcast_message [("X", [1, 2])] "X"
      (fun c => bif c == 1 then SendOutcome.disconnected
        else SendOutcome.delivered) none).2 = [1, 2] ∧
    regLookup (broadcast_message [("X", [1, 2])] "X"
      (fun c => bif c == 1 then SendOutcome.disconnected
        else SendOutcome.delivered) none).1 "X" = some [2] := by
  have h := broadcast_semantics [("X", [1, 2])] "X"
    (fun c => bif c == 1 then SendOutcome.disconnected
      else SendOutcome.delivered) none [1, 2] rfl (by decide)
    (by unfold noEmptyBuckets; decide)
  exact ⟨h.1.trans (by decide), h.2.1.trans (by decide)⟩

end ChatApi
